import Mathlib

/-!
Shallow embedding of the SpecBot RAG pipeline core, translated from the
TypeScript sources:

* `src/lib/openai.ts` — citation scanning and reference construction in
  `chatWithReferences`, plus the corrective follow-up turn;
* `src/app/api/chat/route.ts` — conversation-history retrieval and the
  persisted reference rows;
* `src/lib/azure-document.ts` — segmentation (`extractChunksFromResult`,
  `createParagraphChunk`, `createTableChunk`) and
  `getBoundingBoxCoordinates`;
* the PDF viewer component — the highlight rectangle computed in
  `renderPage`;
* the Pinecone client — `searchChunks` / `searchWithContext` context
  expansion.

Strings are modelled as `List Char`, JavaScript numbers as `ℚ` (scores,
coordinates) or `Int`/`Nat` (indices).  Fallible operations return
`Option` / `Except`.
-/

namespace SpecBot

/-! ## Citation scanning (`src/lib/openai.ts`)

`chatWithReferences` extracts citation markers with the global regex
`\[(\d+)\]` and converts each captured digit run with `parseInt`. -/

/-- Decimal value of a digit run, as `parseInt` computes it on a
digits-only capture. -/
def digitsVal (ds : List Char) : Nat :=
  ds.foldl (fun acc c => acc * 10 + (c.toNat - '0'.toNat)) 0

/-- One step of the global regex scan `\[(\d+)\]`: at an opening bracket, a
nonempty maximal digit run followed by a closing bracket is a match, and
scanning resumes after the closing bracket; otherwise scanning advances one
character. -/
def scanCitationsGo : Nat → List Char → List Nat
  | 0, _ => []
  | _ + 1, [] => []
  | fuel + 1, c :: rest =>
    if c = '[' ∧ rest.takeWhile Char.isDigit ≠ [] ∧
        (rest.dropWhile Char.isDigit).head? = some ']' then
      digitsVal (rest.takeWhile Char.isDigit) ::
        scanCitationsGo fuel (rest.dropWhile Char.isDigit).tail
    else scanCitationsGo fuel rest

/-- All citation numbers found by the global regex scan over the answer
text, in order of occurrence.  The fuel argument of `scanCitationsGo` is the
text length; every step consumes at least one character, so the fuel never
runs out. -/
def scanCitations (s : List Char) : List Nat :=
  scanCitationsGo s.length s

/-! ## `chatWithReferences` reference construction -/

/-- One entry of the `context` array passed to `chatWithReferences`. -/
structure ContextItem where
  content : List Char
  pageNumber : Int
  chunkId : String
deriving DecidableEq, Repr

/-- One entry of the `references` array returned by `chatWithReferences`. -/
structure Reference where
  chunkId : String
  pageNumber : Int
  text : List Char
  relevance : ℚ
deriving DecidableEq, Repr

/-- The keys of `citationToContextMap`: every scanned citation number lying
in the range `1 .. context.length`. -/
def citedNumbers (contextLen : Nat) (answer : List Char) : List Nat :=
  (scanCitations answer).filter (fun n => 0 < n ∧ n ≤ contextLen)

/-- The `referencedChunks` array built by `chatWithReferences`: one entry per
context chunk, text truncated to 200 characters, relevance `1.0` exactly when
the citation number of the chunk `i+1` is a key of `citationToContextMap`. -/
def buildReferences (context : List ContextItem) (answer : List Char) :
    List Reference :=
  context.enum.map fun p =>
    { chunkId := p.2.chunkId
      pageNumber := p.2.pageNumber
      text := p.2.content.take 200
      relevance :=
        if (p.1 + 1) ∈ citedNumbers context.length answer then 1 else 0 }

/-- A reference row persisted by the chat route (`prisma.reference.createMany`). -/
structure SavedReference where
  chunkId : String
  pageNumber : Int
  text : List Char
  relevance : ℚ
  citationIndex : Nat
deriving DecidableEq, Repr

/-- The rows the chat route persists: each reference is saved with
`citationIndex = index + 1`, its 1-based position in the array. -/
def saveReferences (refs : List Reference) : List SavedReference :=
  refs.enum.map fun p =>
    { chunkId := p.2.chunkId
      pageNumber := p.2.pageNumber
      text := p.2.text
      relevance := p.2.relevance
      citationIndex := p.1 + 1 }

/-! ## Corrective follow-up turn

`chatWithReferences` tests the first reply with `/\[\d+\]/`; when no
citation is present and the context is nonempty it issues exactly one
follow-up call and keeps the follow-up text unless that text is empty
(the JS `content || answer` fallback). -/

/-- Final answer text and the number of corrective follow-up calls made,
given the first LLM reply and the text a follow-up call would return. -/
def generateAnswer (context : List ContextItem) (first followUp : List Char) :
    List Char × Nat :=
  if scanCitations first = [] ∧ context ≠ [] then
    (if followUp = [] then first else followUp, 1)
  else (first, 0)

/-! ## Conversation history (`src/app/api/chat/route.ts`)

The route loads the conversation messages ordered ascending by creation
time and takes 10 — the first ten messages in
chronological order — and `chatWithReferences` then applies
`conversationHistory.slice(-5)`. -/

/-- The messages fetched by the Prisma query of the route: ascending creation
order, `take: 10`, i.e. the first ten. -/
def fetchHistory {α : Type} (allMessages : List α) : List α :=
  allMessages.take 10

/-- JS `slice(-5)`: the last five elements (all of them when fewer). -/
def lastFive {α : Type} (l : List α) : List α :=
  l.drop (l.length - 5)

/-- The history portion of the messages actually sent to the LLM. -/
def historySent {α : Type} (allMessages : List α) : List α :=
  lastFive (fetchHistory allMessages)

/-! ## Segmentation (`src/lib/azure-document.ts`) -/

/-- JS `String.includes`: case-sensitive substring test. -/
def hasSubstr (s pat : List Char) : Bool :=
  s.tails.any fun t => pat.isPrefixOf t

/-- JS `!content || content.trim().length === 0`: the text is empty or
whitespace-only. -/
def jsTrimEmpty (s : List Char) : Bool := s.all Char.isWhitespace

/-- A `DocumentParagraph` from the analysis result: content, optional role,
page number of its first bounding region, optional polygon. -/
structure Paragraph where
  content : List Char
  role : Option (List Char)
  regionPage : Option Nat
  polygon : Option (List ℚ)
deriving DecidableEq, Repr

/-- One cell of a `DocumentTable`. -/
structure TableCell where
  rowIndex : Nat
  columnIndex : Nat
  content : List Char
deriving DecidableEq, Repr

/-- A `DocumentTable` from the analysis result. -/
structure Table where
  rowCount : Nat
  columnCount : Nat
  cells : List TableCell
  regionPage : Option Nat
  polygon : Option (List ℚ)
deriving DecidableEq, Repr

/-- The `chunkType` discriminator of an `ExtractedChunk`. -/
inductive ChunkType
  | paragraph
  | table
  | heading
  | listType
deriving DecidableEq, Repr

/-- The `metadata.heading` record of a heading chunk. -/
structure HeadingMeta where
  level : Nat
  role : List Char
deriving DecidableEq, Repr

/-- The `metadata.tableData` record of a table chunk. -/
structure TableData where
  rows : Nat
  columns : Nat
  cells : List TableCell
deriving DecidableEq, Repr

/-- An `ExtractedChunk` produced by segmentation. -/
structure Chunk where
  text : List Char
  pageNumber : Nat
  chunkType : ChunkType
  boundingBox : Option (List ℚ)
  readingOrder : Nat
  headingMeta : Option HeadingMeta
  tableMeta : Option TableData
deriving DecidableEq, Repr

/-- `createParagraphChunk`: empty / whitespace-only content yields no chunk;
a role containing `title` or `heading` yields a heading chunk whose level is
1 when the role contains the character `1`, 2 when it contains `2`, else 3;
the roles `footnote` and `pageNumber` are dropped; anything else is a plain
paragraph chunk. -/
def createParagraphChunk (p : Paragraph) (pageNumber readingOrder : Nat) :
    Option Chunk :=
  if jsTrimEmpty p.content then none
  else
    match p.role with
    | some role =>
      if hasSubstr role "title".toList ∨ hasSubstr role "heading".toList then
        some { text := p.content
               pageNumber := pageNumber
               chunkType := .heading
               boundingBox := p.polygon
               readingOrder := readingOrder
               headingMeta := some
                 { level :=
                     if hasSubstr role ['1'] then 1
                     else if hasSubstr role ['2'] then 2
                     else 3
                   role := role }
               tableMeta := none }
      else if role = "footnote".toList ∨ role = "pageNumber".toList then
        none
      else
        some { text := p.content
               pageNumber := pageNumber
               chunkType := .paragraph
               boundingBox := p.polygon
               readingOrder := readingOrder
               headingMeta := none
               tableMeta := none }
    | none =>
      some { text := p.content
             pageNumber := pageNumber
             chunkType := .paragraph
             boundingBox := p.polygon
             readingOrder := readingOrder
             headingMeta := none
             tableMeta := none }

/-- Content of the grid cell `(r, c)` after `formatTableAsMarkdown` fills the
`rows` array: the last cell listed for that position wins, empty otherwise. -/
def cellAt (t : Table) (r c : Nat) : List Char :=
  ((t.cells.filter fun cell =>
      cell.rowIndex = r ∧ cell.columnIndex = c).getLast?).elim [] (·.content)

/-- One row of the markdown grid: `| a | b | ... |` followed by a newline. -/
def markdownRow (t : Table) (r : Nat) : List Char :=
  "| ".toList ++
    (List.intercalate " | ".toList
      ((List.range t.columnCount).map fun c => cellAt t r c)) ++
    " |\n".toList

/-- `formatTableAsMarkdown`: `[TABLE]` fence, header row, a `---` separator
row, the remaining data rows, closing `[/TABLE]` fence (assuming the cell
indices lie within the declared row/column counts, as the service
guarantees). -/
def formatTableAsMarkdown (t : Table) : List Char :=
  "[TABLE]\n".toList ++
    markdownRow t 0 ++
    ('|' :: (List.flatten ((List.range t.columnCount).map
      fun _ => " --- |".toList)) ++ ['\n']) ++
    (List.flatten ((List.range (t.rowCount - 1)).map
      fun i => markdownRow t (i + 1))) ++
    "[/TABLE]".toList

/-- `createTableChunk`: a table with no cells yields no chunk; otherwise the
text of the chunk is the markdown rendering and the structured grid is kept in
`metadata.tableData`. -/
def createTableChunk (t : Table) (pageNumber readingOrder : Nat) :
    Option Chunk :=
  if t.cells = [] then none
  else
    some { text := formatTableAsMarkdown t
           pageNumber := pageNumber
           chunkType := .table
           boundingBox := t.polygon
           readingOrder := readingOrder
           headingMeta := none
           tableMeta := some { rows := t.rowCount
                               columns := t.columnCount
                               cells := t.cells } }

/-- A content block visited by the per-page loops of `extractChunksFromResult`. -/
inductive Block
  | para (p : Paragraph)
  | table (t : Table)
deriving DecidableEq, Repr

/-- The layout-analysis result consumed by `extractChunksFromResult`:
page numbers, paragraphs, tables. -/
structure AnalyzeResult where
  pages : List Nat
  paragraphs : List Paragraph
  tables : List Table
deriving DecidableEq, Repr

/-- The blocks one page iteration visits: the paragraphs whose first
bounding region lies on the page, then the tables on the page. -/
def pageBlocks (result : AnalyzeResult) (pg : Nat) : List Block :=
  ((result.paragraphs.filter fun p => p.regionPage = some pg).map Block.para)
    ++ ((result.tables.filter fun t => t.regionPage = some pg).map Block.table)

/-- All blocks of the document in visiting order, tagged with their page. -/
def resultBlocks (result : AnalyzeResult) : List (Nat × Block) :=
  (result.pages.map fun pg => (pageBlocks result pg).map fun b => (pg, b)).flatten

/-- Dispatch of one block to `createParagraphChunk` / `createTableChunk`. -/
def createChunk : Block → Nat → Nat → Option Chunk
  | .para p, pg, k => createParagraphChunk p pg k
  | .table t, pg, k => createTableChunk t pg k

/-- The block loop of `extractChunksFromResult`: the counter `readingOrder`
is passed as `readingOrder++` at the call site, so it advances for every
visited block whether or not a chunk is emitted. -/
def extractGo : List (Nat × Block) → Nat → List Chunk
  | [], _ => []
  | (pg, b) :: bs, k =>
    match createChunk b pg k with
    | some c => c :: extractGo bs (k + 1)
    | none => extractGo bs (k + 1)

/-- `extractChunksFromResult`: visit the paragraphs then tables of each page with
a single document-global counter starting at 0. -/
def extractChunksFromResult (result : AnalyzeResult) : List Chunk :=
  extractGo (resultBlocks result) 0

/-- Whether a visited block yields a chunk (the emitted/dropped decision
does not depend on the counter value). -/
def keepBlock (b : Nat × Block) : Bool :=
  (createChunk b.2 b.1 0).isSome

/-! ## Highlight rectangles -/

/-- `Math.min` on two rationals, written so that it evaluates by kernel
reduction. -/
def jsMin (a b : ℚ) : ℚ := if a ≤ b then a else b

/-- `Math.max` on two rationals. -/
def jsMax (a b : ℚ) : ℚ := if a ≤ b then b else a

/-- An axis-aligned rectangle `{x, y, width, height}`. -/
structure Rect where
  x : ℚ
  y : ℚ
  width : ℚ
  height : ℚ
deriving DecidableEq, Repr

/-- `getBoundingBoxCoordinates` (`src/lib/azure-document.ts`): `null` for an
absent polygon or one with fewer than 8 numbers, otherwise min/max of the
four corner coordinates in source units. -/
def getBoundingBoxCoordinates (boundingBox : Option (List ℚ)) : Option Rect :=
  match boundingBox with
  | none => none
  | some bb =>
    if bb.length < 8 then none
    else
      let x := jsMin (jsMin (bb.getD 0 0) (bb.getD 2 0))
                     (jsMin (bb.getD 4 0) (bb.getD 6 0))
      let y := jsMin (jsMin (bb.getD 1 0) (bb.getD 3 0))
                     (jsMin (bb.getD 5 0) (bb.getD 7 0))
      let maxX := jsMax (jsMax (bb.getD 0 0) (bb.getD 2 0))
                        (jsMax (bb.getD 4 0) (bb.getD 6 0))
      let maxY := jsMax (jsMax (bb.getD 1 0) (bb.getD 3 0))
                        (jsMax (bb.getD 5 0) (bb.getD 7 0))
      some { x := x, y := y, width := maxX - x, height := maxY - y }

/-- The highlight rectangle computed inside `renderPage` (PDF viewer
component): a bounding-box array shorter than 8 draws nothing; otherwise
each source point is mapped to render space by `xr = x * scale` and
`yr = (pageHeight - y) * scale` with `pageHeight = viewport.height / scale`,
and the min/max corners give the rectangle. -/
def renderHighlightRect (boundingBox : Option (List ℚ))
    (scale renderedPageHeight : ℚ) : Option Rect :=
  match boundingBox with
  | none => none
  | some bb =>
    if 8 ≤ bb.length then
      let pageHeight := renderedPageHeight / scale
      let x1 := bb.getD 0 0 * scale
      let y1 := (pageHeight - bb.getD 1 0) * scale
      let x2 := bb.getD 2 0 * scale
      let y2 := (pageHeight - bb.getD 3 0) * scale
      let x3 := bb.getD 4 0 * scale
      let y3 := (pageHeight - bb.getD 5 0) * scale
      let x4 := bb.getD 6 0 * scale
      let y4 := (pageHeight - bb.getD 7 0) * scale
      let minX := jsMin (jsMin x1 x2) (jsMin x3 x4)
      let minY := jsMin (jsMin y1 y2) (jsMin y3 y4)
      let maxX := jsMax (jsMax x1 x2) (jsMax x3 x4)
      let maxY := jsMax (jsMax y1 y2) (jsMax y3 y4)
      some { x := minX, y := minY, width := maxX - minX, height := maxY - minY }
    else none

/-! ## Vector search with context expansion (Pinecone client) -/

/-- The vector metadata fields the expansion and sort consult.  A field the
record lacks (or whose value is not a number) is `none`. -/
structure VectorMeta where
  chunkIndex : Option Int
  pageNumber : Option Int
  readingOrder : Option Int
deriving DecidableEq, Repr

/-- A Pinecone match / expanded entry: id, similarity score, metadata. -/
structure SearchResult where
  id : String
  score : ℚ
  metadata : VectorMeta
deriving DecidableEq, Repr

/-- Outcome of one `fetch` call for a neighbor id. -/
inductive FetchOutcome
  | found (m : VectorMeta)
  | missing
  | fetchError
deriving DecidableEq, Repr

/-- The deterministic neighbor id `documentId + "-chunk-" + index`. -/
def neighborId (documentId : String) (idx : Int) : String :=
  documentId ++ "-chunk-" ++ toString idx

/-- The sort comparator of `searchWithContext` as a boolean order: ascending
page number (missing treated as 0), then ascending reading order. -/
def docOrderLe (a b : SearchResult) : Bool :=
  if a.metadata.pageNumber.getD 0 = b.metadata.pageNumber.getD 0 then
    decide (a.metadata.readingOrder.getD 0 ≤ b.metadata.readingOrder.getD 0)
  else decide (a.metadata.pageNumber.getD 0 < b.metadata.pageNumber.getD 0)

/-- The offsets visited by the window loop,
`-contextWindow, ..., contextWindow` (0 is skipped inside the loop body). -/
def offsets (w : Nat) : List Int :=
  (List.range (2 * w + 1)).map fun i => (i : Int) - (w : Int)

/-- Inner loop of `searchWithContext` for one match: visit each offset, skip
offset 0 and ids already fetched, append a found neighbor with score
`match.score * 0.8` and record its id. -/
def neighborLoop (fetch : String → FetchOutcome) (documentId : String)
    (m : SearchResult) (ci : Int) :
    List Int → List SearchResult × List String →
      List SearchResult × List String
  | [], st => st
  | off :: offs, (acc, seen) =>
    if off = 0 then neighborLoop fetch documentId m ci offs (acc, seen)
    else
      let nid := neighborId documentId (ci + off)
      if nid ∈ seen then neighborLoop fetch documentId m ci offs (acc, seen)
      else
        match fetch nid with
        | .found meta =>
          neighborLoop fetch documentId m ci offs
            (acc ++ [{ id := nid, score := m.score * (4 / 5 : ℚ),
                       metadata := meta }], nid :: seen)
        | _ => neighborLoop fetch documentId m ci offs (acc, seen)

/-- Outer loop of `searchWithContext`: a match without a numeric
`chunkIndex` is skipped, otherwise its window of neighbors is visited. -/
def matchLoop (fetch : String → FetchOutcome) (documentId : String) (w : Nat) :
    List SearchResult → List SearchResult × List String →
      List SearchResult × List String
  | [], st => st
  | m :: ms, st =>
    match m.metadata.chunkIndex with
    | none => matchLoop fetch documentId w ms st
    | some ci =>
      matchLoop fetch documentId w ms
        (neighborLoop fetch documentId m ci (offsets w) st)

/-- The expanded chunk list before sorting: the matches themselves, then
every newly found neighbor. -/
def expandMatches (fetch : String → FetchOutcome) (documentId : String)
    (w : Nat) (matchList : List SearchResult) : List SearchResult :=
  (matchLoop fetch documentId w matchList (matchList, matchList.map (·.id))).1

/-- `searchWithContext` on a successful initial query: empty matches return
the empty list, otherwise the expanded set sorted by
`(pageNumber, readingOrder)`. -/
def searchWithContextOk (fetch : String → FetchOutcome) (documentId : String)
    (w : Nat) (matchList : List SearchResult) : List SearchResult :=
  if matchList = [] then []
  else (expandMatches fetch documentId w matchList).mergeSort docOrderLe

/-- `searchWithContext` including its error handling: a failing initial
query falls back to the plain top-K `searchChunks` query (whose outcome is
the `fallbackQuery` argument). -/
def searchWithContextFull
    (initialQuery fallbackQuery : Except Unit (List SearchResult))
    (fetch : String → FetchOutcome) (documentId : String) (w : Nat) :
    Except Unit (List SearchResult) :=
  match initialQuery with
  | .error _ => fallbackQuery
  | .ok ms => .ok (searchWithContextOk fetch documentId w ms)

/-- Collapse fetch errors to "record not found": used to state that an
error on an individual neighbor is handled exactly like a missing
neighbor. -/
def errorsAsMissing (fetch : String → FetchOutcome) :
    String → FetchOutcome :=
  fun id => match fetch id with
  | .found m => .found m
  | _ => .missing

/-! ## Spec-side formulations (for refinement statements) -/

/-- The hierarchy level the heading branch of `createParagraphChunk`
records for a role string. -/
def roleHeadingLevel (role : List Char) : Nat :=
  if hasSubstr role ['1'] then 1
  else if hasSubstr role ['2'] then 2
  else 3

/-- Spec formulation of the highlight transform on x:  `xr = x * scale`. -/
def specTransformX (scale x : ℚ) : ℚ := x * scale

/-- Spec formulation of the highlight transform on y:
`yr = (pageHeightInSourceUnits - y) * scale` with
`pageHeightInSourceUnits = renderedPageHeight / scale`. -/
def specTransformY (scale renderedPageHeight y : ℚ) : ℚ :=
  (renderedPageHeight / scale - y) * scale

/-! # Supporting lemmas -/

theorem mem_citedNumbers (len n : Nat) (answer : List Char)
    (h1 : 0 < n) (h2 : n ≤ len) :
    n ∈ citedNumbers len answer ↔ n ∈ scanCitations answer := by
  simp [citedNumbers, List.mem_filter, h1, h2]

theorem length_buildReferences (context : List ContextItem)
    (answer : List Char) :
    (buildReferences context answer).length = context.length := by
  simp [buildReferences, List.enum_length]

theorem getElem?_buildReferences (context : List ContextItem)
    (answer : List Char) (i : Nat) (c : ContextItem)
    (hc : context[i]? = some c) :
    (buildReferences context answer)[i]? = some
      { chunkId := c.chunkId
        pageNumber := c.pageNumber
        text := c.content.take 200
        relevance :=
          if (i + 1) ∈ citedNumbers context.length answer then 1 else 0 } := by
  simp [buildReferences, List.getElem?_map, List.getElem?_enum, hc]

theorem getElem?_saveReferences (refs : List Reference) (i : Nat)
    (r : Reference) (hr : refs[i]? = some r) :
    (saveReferences refs)[i]? = some
      { chunkId := r.chunkId
        pageNumber := r.pageNumber
        text := r.text
        relevance := r.relevance
        citationIndex := i + 1 } := by
  simp [saveReferences, List.getElem?_map, List.getElem?_enum, hr]

/-! # Claim C1 -/

/-- C1: for every question, context list and LLM reply, `chatWithReferences`
returns exactly `context.length` references; the reference at 0-based
position `i` carries the chunk id, page number and 200-character preview of
context item `i` and is persisted with `citationIndex = i + 1`; its
relevance score is `1.0` exactly when the citation number `i + 1` is found
by the bracketed-numeral scan of the final answer text (multiple
occurrences counting once, via membership), and `0.0` otherwise. -/
theorem chatWithReferences_reference_invariant
    (context : List ContextItem) (answer : List Char) (i : Nat)
    (c : ContextItem) (hc : context[i]? = some c) :
    (buildReferences context answer).length = context.length ∧
    (buildReferences context answer)[i]? = some
      { chunkId := c.chunkId
        pageNumber := c.pageNumber
        text := c.content.take 200
        relevance := if (i + 1) ∈ scanCitations answer then 1 else 0 } ∧
    ((saveReferences (buildReferences context answer))[i]?).map
      (·.citationIndex) = some (i + 1) := by
  have hi : i < context.length := by
    by_contra hlt
    rw [List.getElem?_eq_none (Nat.le_of_not_lt hlt)] at hc
    exact Option.noConfusion hc
  have hm := mem_citedNumbers context.length (i + 1) answer
    (Nat.succ_pos i) hi
  refine ⟨length_buildReferences context answer, ?_, ?_⟩
  · rw [getElem?_buildReferences context answer i c hc]
    simp only [hm]
  · rw [getElem?_saveReferences (buildReferences context answer) i _
      (getElem?_buildReferences context answer i c hc)]
    rfl

/-- Witness for C1 at a concrete context and answer. -/
theorem chatWithReferences_reference_invariant_witness :
    (([⟨"alpha".toList, 2, "idA"⟩, ⟨"beta".toList, 3, "idB"⟩] :
        List ContextItem)[1]? = some ⟨"beta".toList, 3, "idB"⟩) ∧
    ((buildReferences [⟨"alpha".toList, 2, "idA"⟩, ⟨"beta".toList, 3, "idB"⟩]
        "See [2] and [2] again".toList).length =
      ([⟨"alpha".toList, 2, "idA"⟩, ⟨"beta".toList, 3, "idB"⟩] :
        List ContextItem).length ∧
    (buildReferences [⟨"alpha".toList, 2, "idA"⟩, ⟨"beta".toList, 3, "idB"⟩]
        "See [2] and [2] again".toList)[1]? = some
      { chunkId := "idB"
        pageNumber := 3
        text := "beta".toList.take 200
        relevance :=
          if (1 + 1) ∈ scanCitations "See [2] and [2] again".toList
          then 1 else 0 } ∧
    ((saveReferences
        (buildReferences [⟨"alpha".toList, 2, "idA"⟩, ⟨"beta".toList, 3, "idB"⟩]
          "See [2] and [2] again".toList))[1]?).map
      (·.citationIndex) = some (1 + 1)) :=
  ⟨rfl, chatWithReferences_reference_invariant _ _ 1 _ rfl⟩

/-! # Claim C10 -/

/-- C10: only in-range bracketed numerals affect the computed references:
whenever two answers agree on the scanned citation numbers lying in
`1 .. context.length`, the computed references coincide — so an
out-of-range marker (`[0]` or `[n]` with `n > context.length`) never adds a
reference, never marks one cited, and never causes an error — and the
reference list always has exactly `context.length` entries. -/
theorem outOfRange_citations_ignored
    (context : List ContextItem) (ans1 ans2 : List Char)
    (h : citedNumbers context.length ans1 = citedNumbers context.length ans2) :
    (buildReferences context ans1).length = context.length ∧
    buildReferences context ans1 = buildReferences context ans2 :=
  ⟨length_buildReferences context ans1, by simp only [buildReferences, h]⟩

/-- Witness for C10: an answer carrying the out-of-range markers `[0]` and
`[7]` yields exactly the same references as one without them. -/
theorem outOfRange_citations_ignored_witness :
    citedNumbers ([⟨"gamma".toList, 1, "idC"⟩] : List ContextItem).length
        "[1] x [0][7]".toList =
      citedNumbers ([⟨"gamma".toList, 1, "idC"⟩] : List ContextItem).length
        "[1]".toList ∧
    ((buildReferences [⟨"gamma".toList, 1, "idC"⟩] "[1] x [0][7]".toList).length =
        ([⟨"gamma".toList, 1, "idC"⟩] : List ContextItem).length ∧
      buildReferences [⟨"gamma".toList, 1, "idC"⟩] "[1] x [0][7]".toList =
        buildReferences [⟨"gamma".toList, 1, "idC"⟩] "[1]".toList) :=
  ⟨by decide, outOfRange_citations_ignored _ _ _ (by decide)⟩

/-! # Claim C5 -/

/-- C5: when the first LLM reply contains no bracketed-number citation and
the context is nonempty, exactly one corrective follow-up call is made and
its text is returned (the original text when the follow-up returns empty);
when the first reply contains a citation or the context is empty, no
follow-up call is made and the first reply is returned. -/
theorem citation_retry_policy
    (context : List ContextItem) (first followUp : List Char) :
    (scanCitations first = [] → context ≠ [] →
      generateAnswer context first followUp =
        (if followUp = [] then first else followUp, 1)) ∧
    (scanCitations first ≠ [] ∨ context = [] →
      generateAnswer context first followUp = (first, 0)) := by
  constructor
  · intro h1 h2
    simp only [generateAnswer, if_pos (And.intro h1 h2)]
  · intro h
    unfold generateAnswer
    rw [if_neg]
    rcases h with h | h
    · exact fun hc => h hc.1
    · exact fun hc => hc.2 h

/-- Witness for C5: a citation-free first reply over a nonempty context
triggers exactly one follow-up whose text is kept. -/
theorem citation_retry_policy_witness :
    scanCitations "no markers here".toList = [] ∧
    ([⟨"c".toList, 1, "id1"⟩] : List ContextItem) ≠ [] ∧
    generateAnswer [⟨"c".toList, 1, "id1"⟩] "no markers here".toList
        "now cited [1]".toList =
      (if "now cited [1]".toList = [] then "no markers here".toList
       else "now cited [1]".toList, 1) :=
  ⟨by decide, by decide,
    (citation_retry_policy _ _ _).1 (by decide) (by decide)⟩

/-! # Claim C6 -/

/-- C6 (code bug): on an 11-message conversation the history sent to the
LLM is messages 5..9 (the last five of the *first* ten fetched by the
ascending take-10 query of the route), not the most recent five messages
6..10 that the claim and the comment in the route ("Get last 10 messages")
describe. -/
theorem history_first_ten_bug :
    historySent (List.range 11) = [5, 6, 7, 8, 9] ∧
    lastFive (List.range 11) = [6, 7, 8, 9, 10] ∧
    historySent (List.range 11) ≠ lastFive (List.range 11) := by decide

/-! # Claim C2 -/

theorem createChunk_readingOrder (b : Block) (pg k : Nat) (c : Chunk)
    (h : createChunk b pg k = some c) : c.readingOrder = k := by
  cases b <;>
    simp only [createChunk, createParagraphChunk, createTableChunk] at h <;>
    (repeat' split at h) <;>
    first
      | exact Option.noConfusion h
      | (cases h; rfl)

theorem createChunk_isSome (b : Block) (pg k j : Nat) :
    (createChunk b pg k).isSome = (createChunk b pg j).isSome := by
  cases b <;>
    simp only [createChunk, createParagraphChunk, createTableChunk] <;>
    (repeat' split) <;> rfl

theorem extractGo_map_readingOrder (bs : List (Nat × Block)) :
    ∀ k : Nat,
      (extractGo bs k).map (·.readingOrder) =
        ((List.enumFrom k bs).filter fun p => keepBlock p.2).map (·.1) := by
  induction bs with
  | nil => intro k; rfl
  | cons hd tl ih =>
    intro k
    obtain ⟨pg, b⟩ := hd
    rw [List.enumFrom_cons]
    cases hcc : createChunk b pg k with
    | none =>
      have hk : keepBlock (pg, b) = false := by
        show (createChunk b pg 0).isSome = false
        rw [createChunk_isSome b pg 0 k, hcc]
        rfl
      simp [extractGo, hcc, List.filter_cons, hk, ih (k + 1)]
    | some c =>
      have hro : c.readingOrder = k := createChunk_readingOrder b pg k c hcc
      have hk : keepBlock (pg, b) = true := by
        show (createChunk b pg 0).isSome = true
        rw [createChunk_isSome b pg 0 k, hcc]
        rfl
      simp [extractGo, hcc, List.filter_cons, hk, hro, ih (k + 1)]

/-- C2 counterexample: a page whose first paragraph carries the `footnote`
role.  The dropped block still consumes a readingOrder slot (the counter is
passed as `readingOrder++` whether or not a chunk is emitted), so the single
emitted chunk has readingOrder 1 and the values are not the contiguous
range `[0, 1)`. -/
theorem readingOrder_gap_counterexample :
    ((extractChunksFromResult
      { pages := [1]
        paragraphs := [⟨"x".toList, some "footnote".toList, some 1, none⟩,
                       ⟨"y".toList, none, some 1, none⟩]
        tables := [] }).map (·.readingOrder) = [1]) ∧
    (extractChunksFromResult
      { pages := [1]
        paragraphs := [⟨"x".toList, some "footnote".toList, some 1, none⟩,
                       ⟨"y".toList, none, some 1, none⟩]
        tables := [] }).length = 1 ∧
    ¬ ((extractChunksFromResult
      { pages := [1]
        paragraphs := [⟨"x".toList, some "footnote".toList, some 1, none⟩,
                       ⟨"y".toList, none, some 1, none⟩]
        tables := [] }).map (·.readingOrder) =
      List.range (extractChunksFromResult
        { pages := [1]
          paragraphs := [⟨"x".toList, some "footnote".toList, some 1, none⟩,
                         ⟨"y".toList, none, some 1, none⟩]
          tables := [] }).length) := by decide

/-- C2 amended: the readingOrder values of the emitted chunks are exactly
the 0-based positions, in the document-wide block traversal (per page:
paragraphs, then tables), of the blocks that yield a chunk.  Every visited
block — including dropped ones (whitespace-only text, footnote or
page-number role, cell-less table) — consumes a slot, so the values are
strictly increasing but need not form the contiguous range `[0, n)`. -/
theorem readingOrder_slots (r : AnalyzeResult) :
    (extractChunksFromResult r).map (·.readingOrder) =
      (((resultBlocks r).enum.filter fun p => keepBlock p.2).map (·.1)) ∧
    ((extractChunksFromResult r).map (·.readingOrder)).Pairwise (· < ·) := by
  have h1 : (extractChunksFromResult r).map (·.readingOrder) =
      (((resultBlocks r).enum.filter fun p => keepBlock p.2).map (·.1)) := by
    unfold extractChunksFromResult
    rw [extractGo_map_readingOrder, List.enum_eq_enumFrom]
  refine ⟨h1, ?_⟩
  rw [h1]
  have henum : ((resultBlocks r).enum).Pairwise (fun a b => a.1 < b.1) := by
    rw [← List.pairwise_map (f := Prod.fst), List.enum_map_fst]
    exact List.pairwise_lt_range _
  rw [List.pairwise_map]
  exact henum.filter _

/-! # Claim C7 -/

/-- C7 counterexample: a paragraph whose role is exactly `title` records
hierarchy level 3, not the level 1 the claim prescribes, because the code
derives the level from the characters `1` / `2` occurring in the role
string and `title` contains neither. -/
theorem title_level_counterexample :
    ((createParagraphChunk
        ⟨"Overview".toList, some "title".toList, some 1, none⟩ 1 0).map
      fun c => c.headingMeta.map (·.level)) = some (some 3) ∧
    (some (some 3) : Option (Option Nat)) ≠ some (some 1) := by decide

/-- C7 amended: a paragraph block with non-blank text whose role contains
`title` or `heading` becomes a heading chunk whose recorded level is 1 when
the role contains the character `1`, 2 when it contains `2` (and not `1`),
and 3 otherwise — in particular a plain `title` role records level 3. -/
theorem heading_level_amended (p : Paragraph) (pg k : Nat) (r : List Char)
    (hrole : p.role = some r)
    (hne : jsTrimEmpty p.content = false)
    (hhead : hasSubstr r "title".toList ∨ hasSubstr r "heading".toList) :
    createParagraphChunk p pg k = some
      { text := p.content
        pageNumber := pg
        chunkType := .heading
        boundingBox := p.polygon
        readingOrder := k
        headingMeta := some { level := roleHeadingLevel r, role := r }
        tableMeta := none } := by
  simp only [createParagraphChunk, hrole, hne, Bool.false_eq_true,
    if_false, roleHeadingLevel]
  rw [if_pos hhead]

/-- Witness for C7 (amended) at the role `heading2`, which records
level 2. -/
theorem heading_level_amended_witness :
    (⟨"Intro".toList, some "heading2".toList, some 1, none⟩ : Paragraph).role
        = some "heading2".toList ∧
    jsTrimEmpty ("Intro".toList) = false ∧
    (hasSubstr "heading2".toList "title".toList ∨
      hasSubstr "heading2".toList "heading".toList) ∧
    createParagraphChunk
        ⟨"Intro".toList, some "heading2".toList, some 1, none⟩ 4 7 =
      some { text := "Intro".toList
             pageNumber := 4
             chunkType := .heading
             boundingBox := none
             readingOrder := 7
             headingMeta := some ⟨roleHeadingLevel "heading2".toList,
               "heading2".toList⟩
             tableMeta := none } :=
  ⟨rfl, by decide, Or.inr (by decide),
    heading_level_amended _ _ _ _ rfl (by decide) (Or.inr (by decide))⟩

/-! # Claim C3 -/

/-- C3: for every 8-number polygon, scale and rendered page height, the
highlight transform maps each source point by `xr = x * scale` and
`yr = (pageHeightInSourceUnits - y) * scale` with
`pageHeightInSourceUnits = renderedPageHeight / scale`, then takes min/max
over the four transformed points; on polygon `[0,0,100,0,100,50,0,50]` it
yields `{0,0,100,50}` at scale 1 / height 50 and `{0,0,200,100}` at scale
2 / height 100. -/
theorem highlight_transform (bb : List ℚ) (scale rh : ℚ)
    (h : bb.length = 8) :
    (renderHighlightRect (some bb) scale rh = some
      { x := jsMin (jsMin (specTransformX scale (bb.getD 0 0))
                          (specTransformX scale (bb.getD 2 0)))
                   (jsMin (specTransformX scale (bb.getD 4 0))
                          (specTransformX scale (bb.getD 6 0)))
        y := jsMin (jsMin (specTransformY scale rh (bb.getD 1 0))
                          (specTransformY scale rh (bb.getD 3 0)))
                   (jsMin (specTransformY scale rh (bb.getD 5 0))
                          (specTransformY scale rh (bb.getD 7 0)))
        width :=
          jsMax (jsMax (specTransformX scale (bb.getD 0 0))
                       (specTransformX scale (bb.getD 2 0)))
                (jsMax (specTransformX scale (bb.getD 4 0))
                       (specTransformX scale (bb.getD 6 0))) -
          jsMin (jsMin (specTransformX scale (bb.getD 0 0))
                       (specTransformX scale (bb.getD 2 0)))
                (jsMin (specTransformX scale (bb.getD 4 0))
                       (specTransformX scale (bb.getD 6 0)))
        height :=
          jsMax (jsMax (specTransformY scale rh (bb.getD 1 0))
                       (specTransformY scale rh (bb.getD 3 0)))
                (jsMax (specTransformY scale rh (bb.getD 5 0))
                       (specTransformY scale rh (bb.getD 7 0))) -
          jsMin (jsMin (specTransformY scale rh (bb.getD 1 0))
                       (specTransformY scale rh (bb.getD 3 0)))
                (jsMin (specTransformY scale rh (bb.getD 5 0))
                       (specTransformY scale rh (bb.getD 7 0))) }) ∧
    renderHighlightRect (some [0, 0, 100, 0, 100, 50, 0, 50]) 1 50 =
      some { x := 0, y := 0, width := 100, height := 50 } ∧
    renderHighlightRect (some [0, 0, 100, 0, 100, 50, 0, 50]) 2 100 =
      some { x := 0, y := 0, width := 200, height := 100 } := by
  refine ⟨?_, ?_, ?_⟩
  · simp only [renderHighlightRect, specTransformX, specTransformY]
    rw [if_pos (by omega)]
  · norm_num [renderHighlightRect, jsMin, jsMax, List.getD]
  · norm_num [renderHighlightRect, jsMin, jsMax, List.getD]

/-- Witness for C3 at the concrete test polygon. -/
theorem highlight_transform_witness :
    ([0, 0, 100, 0, 100, 50, 0, 50] : List ℚ).length = 8 ∧
    renderHighlightRect (some [0, 0, 100, 0, 100, 50, 0, 50]) 1 50 =
      some { x := 0, y := 0, width := 100, height := 50 } :=
  ⟨by decide, (highlight_transform [0, 0, 100, 0, 100, 50, 0, 50] 1 50
    (by decide)).2.1⟩

/-! # Claim C9 -/

/-- C9: an absent bounding polygon, or one with fewer than 8 numbers, makes
both `getBoundingBoxCoordinates` and the highlight computation of the viewer
return the defined "none" result (no rectangle), and neither throws (both
are total functions). -/
theorem malformed_polygon_none (obb : Option (List ℚ)) (scale rh : ℚ)
    (h : ∀ l, obb = some l → l.length < 8) :
    getBoundingBoxCoordinates obb = none ∧
    renderHighlightRect obb scale rh = none := by
  cases obb with
  | none => exact ⟨rfl, rfl⟩
  | some l =>
    have hl := h l rfl
    constructor
    · simp only [getBoundingBoxCoordinates]
      rw [if_pos hl]
    · simp only [renderHighlightRect]
      rw [if_neg (by omega)]

/-- Witness for C9 at a length-6 polygon. -/
theorem malformed_polygon_none_witness :
    (∀ l : List ℚ, (some [0, 0, 100, 0, 100, 50] : Option (List ℚ)) = some l →
      l.length < 8) ∧
    (getBoundingBoxCoordinates (some [0, 0, 100, 0, 100, 50]) = none ∧
      renderHighlightRect (some [0, 0, 100, 0, 100, 50]) 1 50 = none) :=
  ⟨fun l hl => by cases hl; decide,
    malformed_polygon_none (some [0, 0, 100, 0, 100, 50]) 1 50
      (fun l hl => by cases hl; decide)⟩

/-! # Claims C4 and C8: context expansion -/

theorem docOrderLe_trans (a b c : SearchResult)
    (hab : docOrderLe a b = true) (hbc : docOrderLe b c = true) :
    docOrderLe a c = true := by
  unfold docOrderLe at hab hbc ⊢
  split_ifs at hab hbc ⊢ <;> simp_all <;> omega

theorem docOrderLe_total (a b : SearchResult) :
    (docOrderLe a b || docOrderLe b a) = true := by
  unfold docOrderLe
  split_ifs <;> simp_all
  omega

theorem neighborLoop_inv (f : String → FetchOutcome) (d : String)
    (m : SearchResult) (ci : Int) (offs : List Int) :
    ∀ (acc : List SearchResult) (seen : List String),
      (acc.map (·.id)).Nodup → (∀ a ∈ acc, a.id ∈ seen) →
      (((neighborLoop f d m ci offs (acc, seen)).1.map (·.id)).Nodup ∧
        ∀ a ∈ (neighborLoop f d m ci offs (acc, seen)).1,
          a.id ∈ (neighborLoop f d m ci offs (acc, seen)).2) := by
  induction offs with
  | nil => exact fun acc seen h1 h2 => ⟨h1, h2⟩
  | cons off rest ih =>
    intro acc seen h1 h2
    by_cases h0 : off = 0
    · simp only [neighborLoop, if_pos h0]
      exact ih acc seen h1 h2
    · simp only [neighborLoop, if_neg h0]
      by_cases hseen : neighborId d (ci + off) ∈ seen
      · rw [if_pos hseen]
        exact ih acc seen h1 h2
      · rw [if_neg hseen]
        cases hf : f (neighborId d (ci + off)) with
        | found meta =>
          apply ih
          · have hnid : neighborId d (ci + off) ∉ acc.map (·.id) := by
              intro hmem
              rcases List.mem_map.mp hmem with ⟨a, ha, hid⟩
              exact hseen (hid ▸ h2 a ha)
            rw [List.map_append]
            refine List.nodup_append.mpr ⟨h1, List.nodup_singleton _, ?_⟩
            intro x hx hx1
            simp only [List.map_cons, List.map_nil, List.mem_singleton] at hx1
            subst hx1
            exact hnid hx
          · intro a ha
            rcases List.mem_append.mp ha with h | h
            · exact List.mem_cons_of_mem _ (h2 a h)
            · rw [List.mem_singleton.mp h]
              exact List.mem_cons_self _ _
        | missing => exact ih acc seen h1 h2
        | fetchError => exact ih acc seen h1 h2

theorem matchLoop_inv (f : String → FetchOutcome) (d : String) (w : Nat)
    (ms : List SearchResult) :
    ∀ st : List SearchResult × List String,
      (st.1.map (·.id)).Nodup → (∀ a ∈ st.1, a.id ∈ st.2) →
      (((matchLoop f d w ms st).1.map (·.id)).Nodup ∧
        ∀ a ∈ (matchLoop f d w ms st).1,
          a.id ∈ (matchLoop f d w ms st).2) := by
  induction ms with
  | nil => exact fun st h1 h2 => ⟨h1, h2⟩
  | cons m rest ih =>
    intro st h1 h2
    obtain ⟨acc, seen⟩ := st
    cases hci : m.metadata.chunkIndex with
    | none =>
      simp only [matchLoop, hci]
      exact ih (acc, seen) h1 h2
    | some ci =>
      simp only [matchLoop, hci]
      have hn := neighborLoop_inv f d m ci (offsets w) acc seen h1 h2
      exact ih _ hn.1 hn.2

theorem neighborLoop_prov (f : String → FetchOutcome) (d : String)
    (m : SearchResult) (ci : Int) (offs : List Int) :
    ∀ (acc : List SearchResult) (seen : List String),
      ∀ a ∈ (neighborLoop f d m ci offs (acc, seen)).1,
        a ∈ acc ∨ ∃ off ∈ offs, off ≠ 0 ∧
          a.id = neighborId d (ci + off) ∧
          a.score = m.score * (4 / 5) := by
  induction offs with
  | nil => exact fun acc seen a ha => Or.inl ha
  | cons off rest ih =>
    intro acc seen a ha
    by_cases h0 : off = 0
    · simp only [neighborLoop, if_pos h0] at ha
      rcases ih acc seen a ha with h | ⟨o, ho, hne, hid, hsc⟩
      · exact Or.inl h
      · exact Or.inr ⟨o, List.mem_cons_of_mem _ ho, hne, hid, hsc⟩
    · simp only [neighborLoop, if_neg h0] at ha
      by_cases hseen : neighborId d (ci + off) ∈ seen
      · rw [if_pos hseen] at ha
        rcases ih acc seen a ha with h | ⟨o, ho, hne, hid, hsc⟩
        · exact Or.inl h
        · exact Or.inr ⟨o, List.mem_cons_of_mem _ ho, hne, hid, hsc⟩
      · rw [if_neg hseen] at ha
        cases hf : f (neighborId d (ci + off)) with
        | found meta =>
          rw [hf] at ha
          rcases ih _ _ a ha with h | ⟨o, ho, hne, hid, hsc⟩
          · rcases List.mem_append.mp h with h | h
            · exact Or.inl h
            · rw [List.mem_singleton.mp h]
              exact Or.inr ⟨off, List.mem_cons_self _ _, h0, rfl, rfl⟩
          · exact Or.inr ⟨o, List.mem_cons_of_mem _ ho, hne, hid, hsc⟩
        | missing =>
          rw [hf] at ha
          rcases ih acc seen a ha with h | ⟨o, ho, hne, hid, hsc⟩
          · exact Or.inl h
          · exact Or.inr ⟨o, List.mem_cons_of_mem _ ho, hne, hid, hsc⟩
        | fetchError =>
          rw [hf] at ha
          rcases ih acc seen a ha with h | ⟨o, ho, hne, hid, hsc⟩
          · exact Or.inl h
          · exact Or.inr ⟨o, List.mem_cons_of_mem _ ho, hne, hid, hsc⟩

theorem matchLoop_prov (f : String → FetchOutcome) (d : String) (w : Nat)
    (ms : List SearchResult) :
    ∀ st : List SearchResult × List String,
      ∀ a ∈ (matchLoop f d w ms st).1,
        a ∈ st.1 ∨ ∃ m ∈ ms, ∃ ci, m.metadata.chunkIndex = some ci ∧
          ∃ off ∈ offsets w, off ≠ 0 ∧
            a.id = neighborId d (ci + off) ∧
            a.score = m.score * (4 / 5) := by
  induction ms with
  | nil => exact fun st a ha => Or.inl ha
  | cons m rest ih =>
    intro st a ha
    obtain ⟨acc, seen⟩ := st
    cases hci : m.metadata.chunkIndex with
    | none =>
      simp only [matchLoop, hci] at ha
      rcases ih (acc, seen) a ha with h | ⟨m', hm', rest'⟩
      · exact Or.inl h
      · exact Or.inr ⟨m', List.mem_cons_of_mem _ hm', rest'⟩
    | some ci =>
      simp only [matchLoop, hci] at ha
      rcases ih _ a ha with h | ⟨m', hm', rest'⟩
      · rcases neighborLoop_prov f d m ci (offsets w) acc seen a h with
          h | ⟨o, ho, hne, hid, hsc⟩
        · exact Or.inl h
        · exact Or.inr ⟨m, List.mem_cons_self _ _, ci, hci, o, ho, hne, hid, hsc⟩
      · exact Or.inr ⟨m', List.mem_cons_of_mem _ hm', rest'⟩

/-- C4: on a successful initial query with pairwise-distinct match ids, the
expanded result of `searchWithContext` is sorted ascending by
`(pageNumber, readingOrder)` (not by score), contains no duplicate id, and
every entry is either an original match or a neighbor of some match taken
at window offset `off ≠ 0`, carrying score `match.score * 0.8`. -/
theorem context_expansion_properties (f : String → FetchOutcome)
    (d : String) (w : Nat) (matchList : List SearchResult)
    (hnd : (matchList.map (·.id)).Nodup) :
    ((searchWithContextOk f d w matchList).Pairwise
      fun a b => docOrderLe a b = true) ∧
    ((searchWithContextOk f d w matchList).map (·.id)).Nodup ∧
    (∀ r ∈ searchWithContextOk f d w matchList,
      r ∈ matchList ∨ ∃ m ∈ matchList, ∃ ci,
        m.metadata.chunkIndex = some ci ∧ ∃ off ∈ offsets w, off ≠ 0 ∧
          r.id = neighborId d (ci + off) ∧
          r.score = m.score * (4 / 5)) := by
  unfold searchWithContextOk
  by_cases hm : matchList = []
  · subst hm
    simp
  · rw [if_neg hm]
    have hperm := List.mergeSort_perm (expandMatches f d w matchList) docOrderLe
    have hinv := matchLoop_inv f d w matchList (matchList, matchList.map (·.id))
      hnd (fun a ha => List.mem_map_of_mem _ ha)
    refine ⟨List.sorted_mergeSort docOrderLe_trans docOrderLe_total _, ?_, ?_⟩
    · exact ((hperm.map (·.id)).nodup_iff).mpr hinv.1
    · intro r hr
      have hr2 : r ∈ (matchLoop f d w matchList
          (matchList, matchList.map (·.id))).1 := hperm.mem_iff.mp hr
      exact matchLoop_prov f d w matchList (matchList, matchList.map (·.id)) r hr2

/-- Witness for C4 at a one-match store with one present neighbor. -/
theorem context_expansion_properties_witness :
    (([{ id := "doc-chunk-2", score := 1,
         metadata := { chunkIndex := some 2, pageNumber := some 1,
                       readingOrder := some 2 } }] :
        List SearchResult).map (·.id)).Nodup ∧
    (((searchWithContextOk
        (fun id => if id = "doc-chunk-1" then
          FetchOutcome.found { chunkIndex := some 1, pageNumber := some 1,
                               readingOrder := some 1 }
          else FetchOutcome.missing)
        "doc" 1
        [{ id := "doc-chunk-2", score := 1,
           metadata := { chunkIndex := some 2, pageNumber := some 1,
                         readingOrder := some 2 } }]).Pairwise
      fun a b => docOrderLe a b = true) ∧
    ((searchWithContextOk
        (fun id => if id = "doc-chunk-1" then
          FetchOutcome.found { chunkIndex := some 1, pageNumber := some 1,
                               readingOrder := some 1 }
          else FetchOutcome.missing)
        "doc" 1
        [{ id := "doc-chunk-2", score := 1,
           metadata := { chunkIndex := some 2, pageNumber := some 1,
                         readingOrder := some 2 } }]).map (·.id)).Nodup ∧
    (∀ r ∈ searchWithContextOk
        (fun id => if id = "doc-chunk-1" then
          FetchOutcome.found { chunkIndex := some 1, pageNumber := some 1,
                               readingOrder := some 1 }
          else FetchOutcome.missing)
        "doc" 1
        [{ id := "doc-chunk-2", score := 1,
           metadata := { chunkIndex := some 2, pageNumber := some 1,
                         readingOrder := some 2 } }],
      r ∈ ([{ id := "doc-chunk-2", score := 1,
              metadata := { chunkIndex := some 2, pageNumber := some 1,
                            readingOrder := some 2 } }] :
          List SearchResult) ∨
        ∃ m ∈ ([{ id := "doc-chunk-2", score := 1,
                  metadata := { chunkIndex := some 2, pageNumber := some 1,
                                readingOrder := some 2 } }] :
            List SearchResult), ∃ ci,
          m.metadata.chunkIndex = some ci ∧ ∃ off ∈ offsets 1, off ≠ 0 ∧
            r.id = neighborId "doc" (ci + off) ∧
            r.score = m.score * (4 / 5))) :=
  ⟨by decide,
    context_expansion_properties
      (fun id => if id = "doc-chunk-1" then
        FetchOutcome.found { chunkIndex := some 1, pageNumber := some 1,
                             readingOrder := some 1 }
        else FetchOutcome.missing)
      "doc" 1
      [{ id := "doc-chunk-2", score := 1,
         metadata := { chunkIndex := some 2, pageNumber := some 1,
                       readingOrder := some 2 } }]
      (by decide)⟩

theorem neighborLoop_errors_skipped (f : String → FetchOutcome) (d : String)
    (m : SearchResult) (ci : Int) (offs : List Int) :
    ∀ st : List SearchResult × List String,
      neighborLoop f d m ci offs st =
        neighborLoop (errorsAsMissing f) d m ci offs st := by
  induction offs with
  | nil => exact fun st => rfl
  | cons off rest ih =>
    intro st
    obtain ⟨acc, seen⟩ := st
    by_cases h0 : off = 0
    · simp only [neighborLoop, if_pos h0]
      exact ih (acc, seen)
    · simp only [neighborLoop, if_neg h0]
      by_cases hseen : neighborId d (ci + off) ∈ seen
      · rw [if_pos hseen, if_pos hseen]
        exact ih (acc, seen)
      · rw [if_neg hseen, if_neg hseen]
        cases hf : f (neighborId d (ci + off)) with
        | found meta =>
          have hf2 : errorsAsMissing f (neighborId d (ci + off)) =
              .found meta := by
            simp [errorsAsMissing, hf]
          rw [hf2]
          exact ih _
        | missing =>
          have hf2 : errorsAsMissing f (neighborId d (ci + off)) =
              .missing := by
            simp [errorsAsMissing, hf]
          rw [hf2]
          exact ih (acc, seen)
        | fetchError =>
          have hf2 : errorsAsMissing f (neighborId d (ci + off)) =
              .missing := by
            simp [errorsAsMissing, hf]
          rw [hf2]
          exact ih (acc, seen)

theorem matchLoop_errors_skipped (f : String → FetchOutcome) (d : String)
    (w : Nat) (ms : List SearchResult) :
    ∀ st : List SearchResult × List String,
      matchLoop f d w ms st = matchLoop (errorsAsMissing f) d w ms st := by
  induction ms with
  | nil => exact fun st => rfl
  | cons m rest ih =>
    intro st
    cases hci : m.metadata.chunkIndex with
    | none =>
      simp only [matchLoop, hci]
      exact ih st
    | some ci =>
      simp only [matchLoop, hci]
      rw [← neighborLoop_errors_skipped f d m ci (offsets w) st]
      exact ih _

/-- C8: a fetch error on an individual neighbor is handled exactly like a
missing neighbor (that neighbor is omitted and expansion continues), and a
failing initial top-K query makes `searchWithContext` return the outcome of
the plain top-K fallback query without expansion instead of failing. -/
theorem expansion_error_handling :
    (∀ (fallbackQuery : Except Unit (List SearchResult))
        (f : String → FetchOutcome) (d : String) (w : Nat),
      searchWithContextFull (.error ()) fallbackQuery f d w = fallbackQuery) ∧
    (∀ (f : String → FetchOutcome) (d : String) (w : Nat)
        (matchList : List SearchResult),
      expandMatches f d w matchList =
        expandMatches (errorsAsMissing f) d w matchList ∧
      searchWithContextOk f d w matchList =
        searchWithContextOk (errorsAsMissing f) d w matchList) := by
  refine ⟨fun fb f d w => rfl, fun f d w ml => ?_⟩
  have he : expandMatches f d w ml = expandMatches (errorsAsMissing f) d w ml := by
    unfold expandMatches
    rw [matchLoop_errors_skipped f d w ml (ml, ml.map (·.id))]
  refine ⟨he, ?_⟩
  unfold searchWithContextOk
  rw [he]

end SpecBot
